import Mathlib

/-!
# Verification of the soft-skills assessment pipeline

Shallow embedding, in Lean 4, of the core pipeline of the soft-skills
assessment repository:

* `src/models/evaluator.py` — answer normalization (`_process_answer`),
  the heuristic fallback grader (`_fallback_evaluation`), JSON extraction
  (`_extract_json`) and the multi-model completion request
  (`_make_api_request`);
* `src/models/question_generator.py` — question generation with its static
  fallback table (`generate_question`, `_generate_fallback_question`);
* `src/app.py` — session score finalization (`end_session`).

Python strings are modelled as Lean `String`s (with the workhorse
operations defined over `List Char`); Python float arithmetic on the
grader's match ratio is modelled as exact rational arithmetic (`ℚ`), with
`int(...)` on a non-negative value modelled as `Int.floor`; Python's
`dict` is modelled as an association list; fallible operations return
`Option`/`Except`.
-/

/-! ## Named characters

The delimiter characters of the JSON and Python string machinery, named
once here (by code point) and used throughout the embedding. -/

/-- The backtick character. -/
def btick : Char := Char.ofNat 96

/-- The opening curly brace character. -/
def obrace : Char := Char.ofNat 123

/-- The closing curly brace character. -/
def cbrace : Char := Char.ofNat 125

/-- The double-quote character. -/
def dquote : Char := Char.ofNat 34

/-- The single-quote character. -/
def squote : Char := Char.ofNat 39

/-- The backslash character. -/
def bslash : Char := Char.ofNat 92

/-! ## Python string primitives, modelled over `List Char`

Python `str.lower()` is modelled ASCII-wise (the repository's strings are
ASCII); `str.split()` with no argument splits on whitespace runs and drops
empty tokens; `a in b` is substring containment; `str.split(sep)` with a
non-empty separator splits on each non-overlapping occurrence from the
left; `str.strip()` removes whitespace from both ends. -/

/-- Python `str.lower()` (ASCII case folding, as in the repository's data). -/
def pyLower (s : String) : String := ⟨s.data.map Char.toLower⟩

/-- Helper for `pyWords`: accumulate the current (reversed) token while
scanning; whitespace ends a token, empty tokens are dropped.  This is
Python `str.split()` with no separator. -/
def wordsAux : List Char → List Char → List (List Char)
  | [], acc => if acc.isEmpty then [] else [acc.reverse]
  | c :: rest, acc =>
    if c.isWhitespace then
      if acc.isEmpty then wordsAux rest [] else acc.reverse :: wordsAux rest []
    else wordsAux rest (c :: acc)

/-- Python `str.split()` (no separator): whitespace-delimited tokens. -/
def pyWords (s : String) : List String := (wordsAux s.data []).map String.mk

/-- Does `sep` occur as a prefix of some tail of `cs`?  This is Python's
substring containment `sep in cs`. -/
def listOccurs (sep : List Char) : List Char → Bool
  | [] => sep.isPrefixOf ([] : List Char)
  | c :: rest => sep.isPrefixOf (c :: rest) || listOccurs sep rest

/-- Python `needle in hay` (substring containment). -/
def strContains (hay needle : String) : Bool := listOccurs needle.data hay.data

/-- Helper for `pySplit`: split `cs` on each non-overlapping, leftmost
occurrence of `sep`, carrying the current (reversed) chunk.  The fuel
argument (structural recursion, so that the definition evaluates in the
kernel) is an upper bound on the number of scanning steps; `pySplit`
passes `cs.length`, which always suffices for a non-empty separator, so
the fuel-exhausted case is unreachable. -/
def splitOnAux (sep : List Char) : Nat → List Char → List Char → List (List Char)
  | _, [], acc => [acc.reverse]
  | 0, cs, acc => [acc.reverse ++ cs]
  | fuel+1, c :: rest, acc =>
    if sep.isPrefixOf (c :: rest) then
      acc.reverse :: splitOnAux sep fuel (List.drop (sep.length - 1) rest) []
    else
      splitOnAux sep fuel rest (c :: acc)

/-- Python `str.split(sep)` for a non-empty separator. -/
def pySplit (sep cs : List Char) : List (List Char) :=
  splitOnAux sep cs.length cs []

/-- Python `str.strip()`: drop whitespace from both ends. -/
def pyStrip (cs : List Char) : List Char :=
  (((cs.dropWhile Char.isWhitespace).reverse).dropWhile Char.isWhitespace).reverse

/-- Strip the characters of `chars` from both ends of a token: Python
`str.strip(chars)`. -/
def pyStripChars (chars : List Char) (cs : List Char) : List Char :=
  (((cs.dropWhile (chars.contains ·)).reverse).dropWhile (chars.contains ·)).reverse

/-! ## Basic lemmas about the string primitives -/

theorem charOfNat_toNat (n : Nat) (h : n < 55296) : (Char.ofNat n).toNat = n := by
  unfold Char.ofNat
  rw [dif_pos (Or.inl h)]
  simp [Char.ofNatAux, Char.toNat, UInt32.toNat]

theorem toLower_isWhitespace (c : Char) :
    (Char.toLower c).isWhitespace = c.isWhitespace := by
  have hdef : Char.toLower c =
      if c.toNat ≥ 65 ∧ c.toNat ≤ 90 then Char.ofNat (c.toNat + 32) else c := rfl
  rw [hdef]
  by_cases h : c.toNat ≥ 65 ∧ c.toNat ≤ 90
  · obtain ⟨h1, h2⟩ := h
    rw [if_pos ⟨h1, h2⟩]
    have hv : (Char.ofNat (c.toNat + 32)).toNat = c.toNat + 32 :=
      charOfNat_toNat _ (by omega)
    have hw : c.isWhitespace = false := by
      have e1 : c ≠ ' ' := fun h => by subst h; exact absurd h1 (by decide)
      have e2 : c ≠ '\t' := fun h => by subst h; exact absurd h1 (by decide)
      have e3 : c ≠ '\r' := fun h => by subst h; exact absurd h1 (by decide)
      have e4 : c ≠ '\n' := fun h => by subst h; exact absurd h1 (by decide)
      simp [Char.isWhitespace, e1, e2, e3, e4]
    have hw2 : (Char.ofNat (c.toNat + 32)).isWhitespace = false := by
      have e1 : Char.ofNat (c.toNat + 32) ≠ ' ' := fun h => by
        have h' := congrArg Char.toNat h; rw [hv] at h'
        rw [show (' ').toNat = 32 from rfl] at h'; omega
      have e2 : Char.ofNat (c.toNat + 32) ≠ '\t' := fun h => by
        have h' := congrArg Char.toNat h; rw [hv] at h'
        rw [show ('\t').toNat = 9 from rfl] at h'; omega
      have e3 : Char.ofNat (c.toNat + 32) ≠ '\r' := fun h => by
        have h' := congrArg Char.toNat h; rw [hv] at h'
        rw [show ('\r').toNat = 13 from rfl] at h'; omega
      have e4 : Char.ofNat (c.toNat + 32) ≠ '\n' := fun h => by
        have h' := congrArg Char.toNat h; rw [hv] at h'
        rw [show ('\n').toNat = 10 from rfl] at h'; omega
      simp [Char.isWhitespace, e1, e2, e3, e4]
    rw [hw, hw2]
  · rw [if_neg h]

theorem map_isEmpty (f : Char → Char) (l : List Char) :
    (l.map f).isEmpty = l.isEmpty := by cases l <;> rfl

/-- Tokenization commutes with a character map that preserves
whitespace-ness. -/
theorem wordsAux_map (f : Char → Char)
    (hf : ∀ c, (f c).isWhitespace = c.isWhitespace) :
    ∀ (cs acc : List Char),
      wordsAux (cs.map f) (acc.map f) = (wordsAux cs acc).map (List.map f)
  | [], acc => by
    simp only [List.map_nil, wordsAux, map_isEmpty]
    by_cases h : acc.isEmpty
    · simp only [h, if_true, List.map_nil]
    · simp only [h, Bool.false_eq_true, if_false, List.map_cons, List.map_nil,
        List.map_reverse]
  | c :: rest, acc => by
    simp only [List.map_cons, wordsAux, hf c, map_isEmpty]
    by_cases hws : c.isWhitespace
    · simp only [hws, if_true]
      by_cases h : acc.isEmpty
      · simp only [h, if_true]
        exact wordsAux_map f hf rest []
      · simp only [h, Bool.false_eq_true, if_false, List.map_cons,
          List.map_reverse]
        exact congrArg _ (wordsAux_map f hf rest [])
    · simp only [hws, Bool.false_eq_true, if_false]
      exact wordsAux_map f hf rest (c :: acc)

theorem wordsAux_map_nil (f : Char → Char)
    (hf : ∀ c, (f c).isWhitespace = c.isWhitespace) (cs : List Char) :
    wordsAux (cs.map f) [] = (wordsAux cs []).map (List.map f) :=
  wordsAux_map f hf cs []

theorem pyWords_pyLower (s : String) :
    pyWords (pyLower s) = (pyWords s).map pyLower := by
  have h : pyWords (pyLower s)
      = ((wordsAux s.data []).map (List.map Char.toLower)).map String.mk := by
    show (wordsAux ((pyLower s).data) []).map String.mk = _
    rw [show (pyLower s).data = s.data.map Char.toLower from rfl]
    rw [wordsAux_map_nil Char.toLower toLower_isWhitespace s.data]
  rw [h]
  show _ = ((wordsAux s.data []).map String.mk).map pyLower
  rw [List.map_map, List.map_map]
  rfl

theorem pyLower_length (s : String) : (pyLower s).length = s.length := by
  show (s.data.map Char.toLower).length = s.data.length
  exact List.length_map s.data Char.toLower

theorem string_ne_empty_of_data_ne_nil {s : String} (h : s.data ≠ []) : s ≠ "" :=
  fun he => h (by subst he; rfl)

theorem append_ne_empty_left {s : String} (t : String) (h : s.data ≠ []) :
    s ++ t ≠ "" := by
  apply string_ne_empty_of_data_ne_nil
  rw [String.data_append]
  intro hh
  exact h (List.append_eq_nil.mp hh).1

/-! ## The heuristic fallback grader — `Evaluator._fallback_evaluation`
(src/models/evaluator.py, lines 226-253)

```
student_text = student_answer.lower()
expected_text = expected_answer.lower()
expected_keywords = set(word.strip('.,;:()[]{}"\x27"')
                        for word in expected_text.split()
                        if len(word) > 4)
matching_keywords = 0
for keyword in expected_keywords:
    if keyword in student_text:
        matching_keywords += 1
match_percentage = matching_keywords / len(expected_keywords) if expected_keywords else 0
is_correct = match_percentage >= 0.5
```

The Python `set` is modelled as a deduplicated list (iteration over the
set only counts elements, so order is irrelevant); Python float division
is modelled as exact division in `ℚ`; `int(x)` for the non-negative `x`
appearing here is modelled as `⌊x⌋`. -/

/-- The fixed punctuation characters stripped from keyword ends:
`'.,;:()[]{}"\x27'` (the Python literal lists the double quote twice;
as a character set that is irrelevant). -/
def punctChars : List Char := ['.', ',', ';', ':', '(', ')', '[', ']'] ++
  [obrace, cbrace, dquote, squote]

/-- `word.strip('.,;:()[]{}"\x27"')` on a token. -/
def stripPunct (w : String) : String := ⟨pyStripChars punctChars w.data⟩

/-- The expected keyword set: whitespace tokens of the lowercased expected
text whose (raw, pre-strip) length exceeds 4, each stripped of end
punctuation, duplicates collapsed. -/
def expectedKeywords (expected_answer : String) : List String :=
  (((pyWords (pyLower expected_answer)).filter (fun w => 4 < w.length)).map
    stripPunct).dedup

/-- Number of expected keywords occurring as substrings of the lowercased
student answer. -/
def matchingKeywords (student_answer expected_answer : String) : Nat :=
  ((expectedKeywords expected_answer).filter
    (fun k => strContains (pyLower student_answer) k)).length

/-- `match_percentage`: matches divided by the keyword-set size, `0` for an
empty keyword set. -/
def matchRatio (student_answer expected_answer : String) : ℚ :=
  if (expectedKeywords expected_answer).isEmpty then 0
  else (matchingKeywords student_answer expected_answer : ℚ) /
    ((expectedKeywords expected_answer).length : ℚ)

/-- `Evaluator._fallback_evaluation`: the verdict together with the
templated explanation. -/
def fallbackEvaluation (student_answer expected_answer : String) :
    Bool × String :=
  let match_percentage := matchRatio student_answer expected_answer
  let is_correct := decide ((1 : ℚ)/2 ≤ match_percentage)
  let pct : ℤ := ⌊match_percentage * 100⌋
  let explanation :=
    if is_correct then
      "The answer covers approximately " ++ toString pct ++
        "% of the key concepts expected."
    else
      "The answer is missing several important concepts (only covers about "
        ++ toString pct ++ "% of expected key points)."
  (is_correct, explanation)

/-- Spec-phrased variant of the keyword set, for the refinement claim about
tokenization: keep a token iff it is longer than 4 characters AFTER
stripping the punctuation from its ends (the code instead tests the raw
token's length).  This definition follows the words of the specification,
for comparison with `expectedKeywords`, which follows the code. -/
def expectedKeywordsSpec (expected_answer : String) : List String :=
  (((pyWords (pyLower expected_answer)).map stripPunct).filter
    (fun w => 4 < w.length)).dedup

/-! ## Session score — `end_session` (src/app.py, lines 74-94)

```
if len(session["evaluations"]) > 0:
    correct_answers = sum(1 for eval_result in session["evaluations"] if eval_result[0])
    total_questions = len(session["evaluations"])
    session["score"] = int((correct_answers / total_questions) * 100)
```

Evaluations are the `(is_correct, explanation)` pairs produced by
`evaluate_answer`; the session's score starts at `0` and is left unchanged
when there are no evaluations. -/

/-- The score `end_session` stores and returns, given the session's
evaluations and its prior score (initially `0`). -/
def endSessionScore (evaluations : List (Bool × String)) (score : ℤ) : ℤ :=
  if 0 < evaluations.length then
    let correct_answers := (evaluations.filter (fun e => e.1)).length
    let total_questions := evaluations.length
    ⌊((correct_answers : ℚ) / (total_questions : ℚ)) * 100⌋
  else score

/-! ## Answer normalization — `Evaluator._process_answer`
(src/models/evaluator.py, lines 94-112)

The transcription and image-description collaborators
(`AudioTranscriber.transcribe_audio` and the
`MediaProcessor.process_image_for_ai` / `create_image_description`
pipeline) perform I/O and model inference; they are passed in as function
parameters.  `media_path` is an optional string; Python truthiness of the
argument is `pyTruthyOpt`. -/

/-- Python truthiness of an optional string (`None` and `""` are falsy). -/
def pyTruthyOpt : Option String → Bool
  | none => false
  | some s => !s.isEmpty

/-- `Evaluator._process_answer`. -/
def processAnswer (transcribe describeImage : String → String)
    (answer : String) (answer_type : String) (media_path : Option String) :
    String :=
  if answer_type = "Text" then answer
  else if answer_type = "Audio" ∧ pyTruthyOpt media_path then
    "Audio Answer Transcript: " ++ transcribe (media_path.getD "")
  else if answer_type = "Image" ∧ pyTruthyOpt media_path then
    "Image Answer Description: " ++ describeImage (media_path.getD "")
  else if !answer.isEmpty then answer else "No answer provided"

/-! ## Supporting lemmas for the grader theorems -/

theorem str_append3_ne_empty (a b c : String) (ha : a.data ≠ []) :
    a ++ b ++ c ≠ "" := by
  apply string_ne_empty_of_data_ne_nil
  rw [String.data_append, String.data_append]
  intro h
  exact ha (List.append_eq_nil.mp (List.append_eq_nil.mp h).1).1

/-- If every whitespace token of the expected answer has length at most 4,
the keyword set is empty. -/
theorem expectedKeywords_eq_nil_of_short {expected : String}
    (H : ∀ w ∈ pyWords expected, w.length ≤ 4) :
    expectedKeywords expected = [] := by
  unfold expectedKeywords
  rw [pyWords_pyLower]
  have hf : ((pyWords expected).map pyLower).filter (fun w => 4 < w.length)
      = [] := by
    rw [List.filter_eq_nil_iff]
    intro a ha
    obtain ⟨w, hw, rfl⟩ := List.mem_map.mp ha
    simp only [decide_eq_true_eq, Nat.not_lt, pyLower_length]
    exact H w hw
  rw [hf]
  rfl

theorem matchRatio_eq_zero_of_short {student expected : String}
    (H : ∀ w ∈ pyWords expected, w.length ≤ 4) :
    matchRatio student expected = 0 := by
  unfold matchRatio
  rw [expectedKeywords_eq_nil_of_short H]
  rfl

/-! ## C3 — ratio formula, verdict threshold, and the short-token case -/

/-- C3: the heuristic fallback grader computes
`match_ratio = matches / |expected_keyword_set|` (`0` for an empty keyword
set) and returns `is_correct = (match_ratio ≥ 0.5)`; moreover, whenever
every whitespace token of the expected answer has length at most 4, the
keyword set is empty, so `match_ratio = 0` and `is_correct = false`. -/
theorem fallback_ratio_and_verdict (student expected : String) :
    (matchRatio student expected =
      if (expectedKeywords expected).isEmpty then 0
      else (matchingKeywords student expected : ℚ) /
        ((expectedKeywords expected).length : ℚ)) ∧
    ((fallbackEvaluation student expected).1 =
      decide ((1 : ℚ)/2 ≤ matchRatio student expected)) ∧
    ((∀ w ∈ pyWords expected, w.length ≤ 4) →
      matchRatio student expected = 0 ∧
      (fallbackEvaluation student expected).1 = false) := by
  refine ⟨rfl, rfl, fun H => ?_⟩
  have h0 := @matchRatio_eq_zero_of_short student expected H
  refine ⟨h0, ?_⟩
  show decide ((1 : ℚ)/2 ≤ matchRatio student expected) = false
  rw [h0, decide_eq_false_iff_not]
  norm_num

/-- Witness for C3: `"the cat ran."` has only tokens of length ≤ 4, and the
grader indeed yields ratio `0` and verdict `false` on it. -/
theorem fallback_ratio_and_verdict_witness :
    matchRatio "anything" "the cat ran." = 0 ∧
    (fallbackEvaluation "anything" "the cat ran.").1 = false :=
  (fallback_ratio_and_verdict "anything" "the cat ran.").2.2 (by decide)

/-! ## C4 — which tokens enter the keyword set -/

/-- Counterexample for C4: for the expected text `"able.,"` the code's
keyword set (raw token length tested before stripping) differs from the
spec's keyword set (length tested after stripping): the raw token
`"able.,"` has length 6 > 4, but its stripped form `"able"` has length
4. -/
theorem expectedKeywords_ne_spec_on_able :
    expectedKeywords "able., help" ≠ expectedKeywordsSpec "able., help" := by
  decide

/-- C4 (amended): the keyword set consists exactly of the stripped forms of
those whitespace tokens of the lowercased text whose RAW length (before
punctuation stripping) exceeds 4. -/
theorem expectedKeywords_mem_iff (expected w : String) :
    w ∈ expectedKeywords expected ↔
      ∃ t ∈ pyWords (pyLower expected), 4 < t.length ∧ w = stripPunct t := by
  unfold expectedKeywords
  rw [List.mem_dedup, List.mem_map]
  constructor
  · rintro ⟨t, ht, rfl⟩
    obtain ⟨ht1, ht2⟩ := List.mem_filter.mp ht
    exact ⟨t, ht1, by simpa using ht2, rfl⟩
  · rintro ⟨t, ht, hl, rfl⟩
    exact ⟨t, List.mem_filter.mpr ⟨ht, by simpa using hl⟩, rfl⟩

/-! ## C5 — the specific "active listening" example -/

unseal Rat.mul Rat.add Rat.inv in
/-- Counterexample for C5: on the spec's own example the grader matches
only 1 of the 5 keywords ("empathy"; "listening" is not a substring of
"listened"), so `is_correct` is `false`, not `true`. -/
theorem fallback_active_listening_not_correct :
    (fallbackEvaluation "I listened carefully and showed empathy"
      "Demonstrate active listening and empathy when responding").1
      = false := by decide

unseal Rat.mul Rat.add Rat.inv in
/-- C5 (amended): on expected text "Demonstrate active listening and
empathy when responding" and student text "I listened carefully and showed
empathy", the keyword set has 5 elements, exactly 1 matches, the ratio is
1/5 < 0.5, and the grader returns `is_correct = false` with the negative
explanation reporting 20%. -/
theorem fallback_active_listening_value :
    (expectedKeywords
        "Demonstrate active listening and empathy when responding").length = 5 ∧
    matchingKeywords "I listened carefully and showed empathy"
      "Demonstrate active listening and empathy when responding" = 1 ∧
    matchRatio "I listened carefully and showed empathy"
      "Demonstrate active listening and empathy when responding" = 1/5 ∧
    fallbackEvaluation "I listened carefully and showed empathy"
      "Demonstrate active listening and empathy when responding"
      = (false, "The answer is missing several important concepts (only covers about 20% of expected key points).") := by
  decide

/-! ## C6 — the percentage in the explanation truncates, it does not round -/

unseal Rat.mul Rat.add Rat.inv Rat.sub in
/-- Counterexample for C6: with 3 keywords of which 2 match, the ratio is
2/3; the code's `int(match_percentage * 100)` truncates to 66, whereas
`round(match_ratio*100)` would be 67 (under any rounding convention for
the half-way case, since 200/3 is not a half-integer): the produced
explanation is not the one the claim predicts. -/
theorem fallback_explanation_not_round :
    (fallbackEvaluation "apple1 apple2" "apple1 apple2 apple3").1 = true ∧
    round (matchRatio "apple1 apple2" "apple1 apple2 apple3" * 100) = 67 ∧
    (fallbackEvaluation "apple1 apple2" "apple1 apple2 apple3").2
      = "The answer covers approximately 66% of the key concepts expected." ∧
    (fallbackEvaluation "apple1 apple2" "apple1 apple2 apple3").2
      ≠ "The answer covers approximately "
        ++ toString (round (matchRatio "apple1 apple2" "apple1 apple2 apple3" * 100))
        ++ "% of the key concepts expected." := by
  refine ⟨by decide, by decide, by decide, ?_⟩
  intro h
  rw [show round (matchRatio "apple1 apple2" "apple1 apple2 apple3" * 100) = 67
    by decide] at h
  exact absurd h (by decide)

/-- C6 (amended): for every input, the explanation reports the truncated
integer percentage `⌊match_ratio * 100⌋`, with the positive template when
`is_correct` and the negative template otherwise. -/
theorem fallback_explanation_template (student expected : String) :
    (fallbackEvaluation student expected).2 =
      if (fallbackEvaluation student expected).1 then
        "The answer covers approximately "
          ++ toString ⌊matchRatio student expected * 100⌋
          ++ "% of the key concepts expected."
      else
        "The answer is missing several important concepts (only covers about "
          ++ toString ⌊matchRatio student expected * 100⌋
          ++ "% of expected key points)." := by
  cases hd : decide ((1 : ℚ)/2 ≤ matchRatio student expected) with
  | false => simp [fallbackEvaluation, hd]
  | true => simp [fallbackEvaluation, hd]

/-! ## C7 — finalizing the session with verdicts [true, false, true] -/

unseal Rat.mul Rat.add Rat.inv in
/-- Counterexample for C7: with evaluations `[true, false, true]`,
`int((2/3) * 100)` truncates to 66, so the finalized score is not 67. -/
theorem endSessionScore_tft_ne_67 :
    endSessionScore [(true, "e1"), (false, "e2"), (true, "e3")] 0 ≠ 67 := by
  decide

unseal Rat.mul Rat.add Rat.inv in
/-- C7 (amended): finalizing a session whose three evaluations have
`is_correct = [true, false, true]` sets and returns score `66`, the
truncated integer percentage of correct evaluations. -/
theorem endSessionScore_tft_eq_66 :
    endSessionScore [(true, "e1"), (false, "e2"), (true, "e3")] 0 = 66 := by
  decide

/-! ## C10 — invariants of the heuristic grader -/

/-- C10: the match count never exceeds the keyword-set size, the ratio lies
in [0, 1], the integer percentage lies in [0, 100], and the grader always
returns a boolean verdict with a non-empty explanation. -/
theorem fallback_evaluation_invariants (student expected : String) :
    matchingKeywords student expected ≤ (expectedKeywords expected).length ∧
    0 ≤ matchRatio student expected ∧
    matchRatio student expected ≤ 1 ∧
    0 ≤ ⌊matchRatio student expected * 100⌋ ∧
    ⌊matchRatio student expected * 100⌋ ≤ 100 ∧
    ((fallbackEvaluation student expected).1 = true ∨
      (fallbackEvaluation student expected).1 = false) ∧
    (fallbackEvaluation student expected).2 ≠ "" := by
  have hcount : matchingKeywords student expected
      ≤ (expectedKeywords expected).length :=
    List.length_filter_le _ _
  have h0 : 0 ≤ matchRatio student expected := by
    unfold matchRatio
    split
    · exact le_refl 0
    · exact div_nonneg (Nat.cast_nonneg _) (Nat.cast_nonneg _)
  have h1 : matchRatio student expected ≤ 1 := by
    unfold matchRatio
    split
    · exact zero_le_one
    · next hne =>
      have hlen : 0 < (expectedKeywords expected).length := by
        rw [List.length_pos]
        intro hnil
        rw [hnil] at hne
        exact hne rfl
      rw [div_le_one (by exact_mod_cast hlen)]
      exact_mod_cast hcount
  have hm0 : 0 ≤ matchRatio student expected * 100 :=
    mul_nonneg h0 (by norm_num)
  have hm1 : matchRatio student expected * 100 ≤ 100 := by
    calc matchRatio student expected * 100 ≤ 1 * 100 :=
          mul_le_mul_of_nonneg_right h1 (by norm_num)
      _ = 100 := one_mul 100
  refine ⟨hcount, h0, h1, Int.floor_nonneg.mpr hm0, ?_, ?_, ?_⟩
  · calc ⌊matchRatio student expected * 100⌋ ≤ ⌊(100 : ℚ)⌋ :=
          Int.floor_le_floor hm1
      _ = 100 := by norm_num
  · cases (fallbackEvaluation student expected).1
    · exact Or.inr rfl
    · exact Or.inl rfl
  · rw [fallback_explanation_template student expected]
    split
    · exact str_append3_ne_empty _ _ _ (by decide)
    · exact str_append3_ne_empty _ _ _ (by decide)

/-! ## C8 — answer normalization -/

/-- C8: `_process_answer` passes Text answers through unchanged; an Audio
answer with (truthy) media becomes the labeled transcription of the media;
an Image answer with (truthy) media becomes the labeled caption; and for a
non-Text answer type, when there is no (truthy) media and no text answer,
the literal placeholder "No answer provided" is returned. -/
theorem processAnswer_spec (transcribe describeImage : String → String)
    (answer answer_type : String) (media_path : Option String) :
    (answer_type = "Text" →
      processAnswer transcribe describeImage answer answer_type media_path
        = answer) ∧
    (∀ m, answer_type = "Audio" → media_path = some m → m ≠ "" →
      processAnswer transcribe describeImage answer answer_type media_path
        = "Audio Answer Transcript: " ++ transcribe m) ∧
    (∀ m, answer_type = "Image" → media_path = some m → m ≠ "" →
      processAnswer transcribe describeImage answer answer_type media_path
        = "Image Answer Description: " ++ describeImage m) ∧
    (answer_type ≠ "Text" → pyTruthyOpt media_path = false → answer = "" →
      processAnswer transcribe describeImage answer answer_type media_path
        = "No answer provided") := by
  refine ⟨?_, ?_, ?_, ?_⟩
  · intro h
    subst h
    unfold processAnswer
    rw [if_pos rfl]
  · intro m ht hm hne
    subst ht
    subst hm
    have hie : m.isEmpty = false := by
      cases he : m.isEmpty
      · rfl
      · exact absurd ((String.isEmpty_iff m).mp he) hne
    have htr : pyTruthyOpt (some m) = true := by
      simp [pyTruthyOpt, hie]
    unfold processAnswer
    rw [if_neg (by decide), if_pos ⟨rfl, htr⟩]
    rfl
  · intro m ht hm hne
    subst ht
    subst hm
    have hie : m.isEmpty = false := by
      cases he : m.isEmpty
      · rfl
      · exact absurd ((String.isEmpty_iff m).mp he) hne
    have htr : pyTruthyOpt (some m) = true := by
      simp [pyTruthyOpt, hie]
    unfold processAnswer
    rw [if_neg (by decide), if_neg (by simp), if_pos ⟨rfl, htr⟩]
    rfl
  · intro ht hm ha
    subst ha
    unfold processAnswer
    rw [if_neg ht, if_neg (by simp [hm]), if_neg (by simp [hm])]
    rfl

/-- Witness for C8: each branch of `processAnswer_spec`, instantiated at
concrete inputs. -/
theorem processAnswer_spec_witness :
    processAnswer (fun _ => "T") (fun _ => "D") "hello" "Text" none = "hello" ∧
    processAnswer (fun _ => "T") (fun _ => "D") "" "Audio" (some "a.wav")
      = "Audio Answer Transcript: T" ∧
    processAnswer (fun _ => "T") (fun _ => "D") "" "Image" (some "i.png")
      = "Image Answer Description: D" ∧
    processAnswer (fun _ => "T") (fun _ => "D") "" "Audio" none
      = "No answer provided" :=
  ⟨(processAnswer_spec (fun _ => "T") (fun _ => "D") "hello" "Text" none).1 rfl,
   (processAnswer_spec (fun _ => "T") (fun _ => "D") "" "Audio"
      (some "a.wav")).2.1 "a.wav" rfl rfl (by decide),
   (processAnswer_spec (fun _ => "T") (fun _ => "D") "" "Image"
      (some "i.png")).2.2.1 "i.png" rfl rfl (by decide),
   (processAnswer_spec (fun _ => "T") (fun _ => "D") "" "Audio" none).2.2.2
      (by decide) rfl rfl⟩

/-! ## JSON values

A model of the JSON values handled by `json.loads` / `json.dumps`.
Numbers are modelled as exact rationals (the numeric payloads play no role
in any claim). -/

inductive Json where
  | null
  | bool (b : Bool)
  | num (q : ℚ)
  | str (s : String)
  | arr (items : List Json)
  | obj (members : List (String × Json))

/-! ## A JSON parser (model of `json.loads`)

Recursive-descent, fuel-bounded (the fuel is an upper bound on nesting
depth, amply covered by the input length).  Mirrors `json.loads` on the
repository's data: strict strings (raw control characters rejected, the
standard escapes recognized), `null`/`true`/`false`, numbers with optional
fraction and exponent, arrays and objects; trailing non-whitespace makes
the parse fail, as `json.loads` raises. -/

def skipWs (cs : List Char) : List Char := cs.dropWhile Char.isWhitespace

def hexVal (c : Char) : Option Nat :=
  if c.isDigit then some (c.toNat - 48)
  else if 97 ≤ c.toNat ∧ c.toNat ≤ 102 then some (c.toNat - 87)
  else if 65 ≤ c.toNat ∧ c.toNat ≤ 70 then some (c.toNat - 55)
  else none

/-- Parse the body of a JSON string literal (the opening quote already
consumed), accumulating decoded characters in reverse. -/
def parseStrAux : List Char → List Char → Option (String × List Char)
  | [], _ => none
  | c :: rest, acc =>
    if c = dquote then some (⟨acc.reverse⟩, rest)
    else if c = bslash then
      match rest with
      | [] => none
      | e :: rest2 =>
        if e = dquote then parseStrAux rest2 (dquote :: acc)
        else if e = bslash then parseStrAux rest2 (bslash :: acc)
        else if e = '/' then parseStrAux rest2 ('/' :: acc)
        else if e = 'n' then parseStrAux rest2 ('\n' :: acc)
        else if e = 't' then parseStrAux rest2 ('\t' :: acc)
        else if e = 'r' then parseStrAux rest2 ('\r' :: acc)
        else if e = 'b' then parseStrAux rest2 (Char.ofNat 8 :: acc)
        else if e = 'f' then parseStrAux rest2 (Char.ofNat 12 :: acc)
        else if e = 'u' then
          match rest2 with
          | h1 :: h2 :: h3 :: h4 :: rest3 =>
            match hexVal h1, hexVal h2, hexVal h3, hexVal h4 with
            | some a, some b, some c2, some d =>
              parseStrAux rest3
                (Char.ofNat (((a * 16 + b) * 16 + c2) * 16 + d) :: acc)
            | _, _, _, _ => none
          | _ => none
        else none
    else if c.toNat < 32 then none
    else parseStrAux rest (c :: acc)

def spanDigits (cs : List Char) : List Char × List Char :=
  (cs.takeWhile Char.isDigit, cs.dropWhile Char.isDigit)

def digitsToNat (ds : List Char) : Nat :=
  ds.foldl (fun acc c => acc * 10 + (c.toNat - 48)) 0

/-- Parse the fraction digits after the decimal point. -/
def parseFrac (cs : List Char) : Option (ℚ × List Char) :=
  let (fs, rest) := spanDigits cs
  if fs.isEmpty then none
  else some ((digitsToNat fs : ℚ) / ((10 : ℚ) ^ fs.length), rest)

/-- Parse the exponent after `e`/`E`. -/
def parseExp (cs : List Char) : Option (ℤ × List Char) :=
  match cs with
  | [] => none
  | c :: rest =>
    let (sgn, cs1) : ℤ × List Char :=
      if c = '+' then (1, rest)
      else if c = '-' then (-1, rest)
      else (1, c :: rest)
    let (es, rest2) := spanDigits cs1
    if es.isEmpty then none else some (sgn * (digitsToNat es : ℤ), rest2)

def applyExp (q : ℚ) (e : ℤ) : ℚ :=
  if 0 ≤ e then q * (10 : ℚ) ^ e.toNat else q / (10 : ℚ) ^ (-e).toNat

/-- Parse a JSON number. -/
def parseNum (cs : List Char) : Option (ℚ × List Char) :=
  let (neg, cs1) : Bool × List Char :=
    match cs with
    | c :: rest => if c = '-' then (true, rest) else (false, cs)
    | [] => (false, cs)
  let (ds, cs2) := spanDigits cs1
  if ds.isEmpty then none
  else
    let base : ℚ := (digitsToNat ds : ℚ)
    let withFrac : Option (ℚ × List Char) :=
      match cs2 with
      | c :: cs2' =>
        if c = '.' then
          match parseFrac cs2' with
          | some (f, r) => some (base + f, r)
          | none => none
        else some (base, cs2)
      | [] => some (base, cs2)
    match withFrac with
    | none => none
    | some (v1, cs3) =>
      let withExp : Option (ℚ × List Char) :=
        match cs3 with
        | c :: cs3' =>
          if c = 'e' ∨ c = 'E' then
            match parseExp cs3' with
            | some (e, r) => some (applyExp v1 e, r)
            | none => none
          else some (v1, cs3)
        | [] => some (v1, cs3)
      match withExp with
      | none => none
      | some (v2, cs4) => some ((if neg then -v2 else v2), cs4)

mutual

/-- Parse one JSON value, returning it and the remaining input. -/
def parseValueA : Nat → List Char → Option (Json × List Char)
  | 0, _ => none
  | fuel+1, cs =>
    match skipWs cs with
    | [] => none
    | c :: rest =>
      if c = obrace then
        match skipWs rest with
        | [] => none
        | d :: rest2 =>
          if d = cbrace then some (Json.obj [], rest2)
          else
            match parseMembersA fuel (d :: rest2) with
            | some (ms, r) => some (Json.obj ms, r)
            | none => none
      else if c = '[' then
        match skipWs rest with
        | [] => none
        | d :: rest2 =>
          if d = ']' then some (Json.arr [], rest2)
          else
            match parseItemsA fuel (d :: rest2) with
            | some (xs, r) => some (Json.arr xs, r)
            | none => none
      else if c = dquote then
        match parseStrAux rest [] with
        | some (s, r) => some (Json.str s, r)
        | none => none
      else
        match c :: rest with
        | 'n' :: 'u' :: 'l' :: 'l' :: r => some (Json.null, r)
        | 't' :: 'r' :: 'u' :: 'e' :: r => some (Json.bool true, r)
        | 'f' :: 'a' :: 'l' :: 's' :: 'e' :: r => some (Json.bool false, r)
        | cs' =>
          match parseNum cs' with
          | some (q, r) => some (Json.num q, r)
          | none => none

/-- Parse the (non-empty) member list of a JSON object, consuming the
closing brace. -/
def parseMembersA : Nat → List Char → Option (List (String × Json) × List Char)
  | 0, _ => none
  | fuel+1, cs =>
    match skipWs cs with
    | [] => none
    | c :: rest =>
      if c = dquote then
        match parseStrAux rest [] with
        | none => none
        | some (k, r1) =>
          match skipWs r1 with
          | [] => none
          | d :: r2 =>
            if d = ':' then
              match parseValueA fuel r2 with
              | none => none
              | some (v, r3) =>
                match skipWs r3 with
                | [] => none
                | e :: r4 =>
                  if e = ',' then
                    match parseMembersA fuel r4 with
                    | some (ms, r5) => some ((k, v) :: ms, r5)
                    | none => none
                  else if e = cbrace then some ([(k, v)], r4)
                  else none
            else none
      else none

/-- Parse the (non-empty) item list of a JSON array, consuming the closing
bracket. -/
def parseItemsA : Nat → List Char → Option (List Json × List Char)
  | 0, _ => none
  | fuel+1, cs =>
    match parseValueA fuel cs with
    | none => none
    | some (v, r) =>
      match skipWs r with
      | [] => none
      | e :: r2 =>
        if e = ',' then
          match parseItemsA fuel r2 with
          | some (xs, r3) => some (v :: xs, r3)
          | none => none
        else if e = ']' then some ([v], r2)
        else none

end

/-- `json.loads` on a character list: one value, optionally surrounded by
whitespace; anything else fails. -/
def parseJsonList (cs : List Char) : Option Json :=
  match parseValueA (cs.length + 2) cs with
  | some (j, rest) => if (skipWs rest).isEmpty then some j else none
  | none => none

/-- `json.loads` on a string. -/
def parseJson (s : String) : Option Json := parseJsonList s.data

/-! ## JSON extraction — `_extract_json`
(src/models/evaluator.py lines 204-224 and
src/models/question_generator.py lines 263-283; the two copies are
identical)

```
if "```json" in text and "```" in text:
    return text.split("```json")[1].split("```")[0].strip()
elif "```" in text:
    json_candidate = text.split("```")[1].split("```")[0].strip()
    try:
        json.loads(json_candidate)
        return json_candidate
    except:
        pass
json_match = re.search(r"\{.*\}", text, re.DOTALL)
if json_match:
    return json_match.group(0)
return text
```

The greedy DOTALL regex `\{.*\}` matches from the first opening brace
that has a closing brace somewhere after it, through the last closing
brace of the whole text; `braceSearch` implements exactly that. -/

/-- The separator `"```json"` as characters. -/
def tickJson : List Char := "```json".data

/-- The separator `"```"` as characters. -/
def tick3 : List Char := "```".data

/-- The prefix of `cs` up to and including the last ` \x7d ` (closing
brace), if any. -/
def upToLastClose : List Char → Option (List Char)
  | [] => none
  | c :: rest =>
    match upToLastClose rest with
    | some pre => some (c :: pre)
    | none => if c = cbrace then some [c] else none

/-- `re.search(r"\{.*\}", text, re.DOTALL)`: the match of the greedy
brace-to-brace pattern, if any. -/
def braceSearch : List Char → Option (List Char)
  | [] => none
  | c :: rest =>
    if c = obrace then
      match upToLastClose rest with
      | some pre => some (c :: pre)
      | none => none
    else braceSearch rest

/-- The regex fallback region of `_extract_json`: the brace match if the
regex hits, otherwise the original text. -/
def bracesOrSelf (cs : List Char) : List Char :=
  match braceSearch cs with
  | some m => m
  | none => cs

/-- `_extract_json` over characters. -/
def extractJsonL (cs : List Char) : List Char :=
  if listOccurs tickJson cs && listOccurs tick3 cs then
    pyStrip ((pySplit tick3 ((pySplit tickJson cs).getD 1 [])).getD 0 [])
  else if listOccurs tick3 cs then
    let candidate :=
      pyStrip ((pySplit tick3 ((pySplit tick3 cs).getD 1 [])).getD 0 [])
    if (parseJsonList candidate).isSome then candidate
    else bracesOrSelf cs
  else bracesOrSelf cs

/-- `_extract_json` on strings. -/
def extractJson (s : String) : String := ⟨extractJsonL s.data⟩

/-- The fenced-response shape from the C9 claim:
` ```json<payload>``` `. -/
def fenceWrap (s : String) : String := "```json" ++ s ++ "```"

/-! ## Lemmas about occurrence, splitting and stripping, toward C9 -/

theorem isPrefixOf_append_self :
    ∀ (l t : List Char), l.isPrefixOf (l ++ t) = true
  | [], _ => List.isPrefixOf_nil_left
  | c :: rest, t => by
    simp only [List.cons_append, List.isPrefixOf_cons₂, beq_self_eq_true,
      Bool.true_and]
    exact isPrefixOf_append_self rest t

/-- If the separator already occurs as a prefix, it occurs. -/
theorem listOccurs_of_isPrefixOf (sep : List Char) :
    ∀ cs, sep.isPrefixOf cs = true → listOccurs sep cs = true
  | [], h => by simp [listOccurs, h]
  | c :: rest, h => by simp [listOccurs, h]

/-- A separator starting with a backtick never occurs in a backtick-free
text. -/
theorem listOccurs_no_btick (sep' : List Char) :
    ∀ cs, (∀ c ∈ cs, c ≠ btick) → listOccurs (btick :: sep') cs = false
  | [], _ => rfl
  | c :: rest, h => by
    have hc : c ≠ btick := h c (List.mem_cons_self c rest)
    have hb : (btick == c) = false := by
      rw [beq_eq_false_iff_ne]
      exact fun he => hc he.symm
    simp only [listOccurs, List.isPrefixOf_cons₂, hb, Bool.false_and,
      Bool.false_or]
    exact listOccurs_no_btick sep' rest
      (fun d hd => h d (List.mem_cons_of_mem c hd))

/-- `"```json"` does not occur in `s ++ "```"` when `s` is backtick-free:
an occurrence would need the letter `j` right after three backticks, but
the only backticks are the trailing three. -/
theorem listOccurs_tickJson_trailing (s : List Char)
    (h : ∀ c ∈ s, c ≠ btick) : listOccurs tickJson (s ++ tick3) = false := by
  induction s with
  | nil => decide
  | cons c rest ih =>
    have hc : c ≠ btick := h c (List.mem_cons_self c rest)
    have hb : (btick == c) = false := by
      rw [beq_eq_false_iff_ne]
      exact fun he => hc he.symm
    rw [List.cons_append]
    rw [show tickJson = btick :: "``json".data from by decide]
    simp only [listOccurs, List.isPrefixOf_cons₂, hb, Bool.false_and,
      Bool.false_or]
    rw [show (btick :: "``json".data : List Char) = tickJson from by decide]
    exact ih (fun d hd => h d (List.mem_cons_of_mem c hd))

/-- Splitting a text in which the separator does not occur yields a single
chunk. -/
theorem splitOnAux_no_occurrence (sep : List Char) :
    ∀ (cs : List Char) (fuel : Nat) (acc : List Char),
      listOccurs sep cs = false → cs.length ≤ fuel →
      splitOnAux sep fuel cs acc = [acc.reverse ++ cs]
  | [], fuel, acc, _, _ => by
    cases fuel <;> simp [splitOnAux]
  | c :: rest, fuel, acc, hno, hf => by
    have hp : sep.isPrefixOf (c :: rest) = false := by
      by_cases h : sep.isPrefixOf (c :: rest) = true
      · rw [listOccurs_of_isPrefixOf sep _ h] at hno
        exact absurd hno (by simp)
      · exact Bool.eq_false_iff.mpr h
    have hno' : listOccurs sep rest = false := by
      have : listOccurs sep (c :: rest)
          = (sep.isPrefixOf (c :: rest) || listOccurs sep rest) := rfl
      rw [this, hp, Bool.false_or] at hno
      exact hno
    match fuel, hf with
    | f + 1, hf =>
      show splitOnAux sep (f + 1) (c :: rest) acc = _
      simp only [splitOnAux, hp, Bool.false_eq_true, if_false]
      rw [splitOnAux_no_occurrence sep rest f (c :: acc) hno'
        (by simpa [Nat.succ_le_succ_iff] using hf)]
      simp [List.reverse_cons, List.append_assoc]

/-- Splitting a text that starts with the separator peels off one empty
chunk. -/
theorem splitOnAux_sep_leading (s0 : Char) (sep' t acc : List Char)
    (fuel : Nat) :
    splitOnAux (s0 :: sep') (fuel + 1) (s0 :: (sep' ++ t)) acc
      = acc.reverse :: splitOnAux (s0 :: sep') fuel t [] := by
  have hp : (s0 :: sep').isPrefixOf (s0 :: (sep' ++ t)) = true := by
    simp only [List.isPrefixOf_cons₂, beq_self_eq_true, Bool.true_and]
    exact isPrefixOf_append_self sep' t
  show splitOnAux (s0 :: sep') (fuel + 1) (s0 :: (sep' ++ t)) acc = _
  simp only [splitOnAux, hp, if_true]
  congr 1
  rw [show (s0 :: sep').length - 1 = sep'.length by simp]
  rw [List.drop_left sep' t]

/-- Splitting `s ++ "```"` for backtick-free `s` yields `[s, []]`. -/
theorem splitOnAux_trailing_tick3 :
    ∀ (s : List Char), (∀ c ∈ s, c ≠ btick) →
    ∀ (fuel : Nat) (acc : List Char), s.length + 3 ≤ fuel + 1 →
      splitOnAux tick3 fuel (s ++ tick3) acc = [acc.reverse ++ s, []]
  | [], _, fuel, acc, hf => by
    match fuel, hf with
    | f + 2, _ =>
      show splitOnAux (btick :: [btick, btick]) ((f + 1) + 1)
        (btick :: ([btick, btick] ++ ([] : List Char))) acc
        = [acc.reverse ++ [], []]
      rw [splitOnAux_sep_leading btick [btick, btick] [] acc (f + 1)]
      simp [splitOnAux, List.append_nil]
  | c :: rest, h, fuel, acc, hf => by
    have hc : c ≠ btick := h c (List.mem_cons_self c rest)
    have hb : (btick == c) = false := by
      rw [beq_eq_false_iff_ne]
      exact fun he => hc he.symm
    have hp : tick3.isPrefixOf (c :: (rest ++ tick3)) = false := by
      rw [show tick3 = btick :: [btick, btick] from by decide]
      simp [List.isPrefixOf_cons₂, hb]
    match fuel, hf with
    | f + 1, hf =>
      rw [List.cons_append]
      show splitOnAux tick3 (f + 1) (c :: (rest ++ tick3)) acc = _
      simp only [splitOnAux, hp, Bool.false_eq_true, if_false]
      rw [splitOnAux_trailing_tick3 rest
        (fun d hd => h d (List.mem_cons_of_mem c hd)) f (c :: acc)
        (by simp at hf ⊢; omega)]
      simp [List.reverse_cons, List.append_assoc]

/-- Stripping whitespace from a string that starts and ends with
non-whitespace characters changes nothing. -/
theorem pyStrip_of_ends (a b : Char) (mid : List Char)
    (ha : a.isWhitespace = false) (hb : b.isWhitespace = false) :
    pyStrip (a :: (mid ++ [b])) = a :: (mid ++ [b]) := by
  unfold pyStrip
  rw [List.dropWhile_cons, ha]
  simp only [Bool.false_eq_true, if_false]
  rw [show (a :: (mid ++ [b])).reverse = b :: (mid.reverse ++ [a]) from by
    simp [List.reverse_cons, List.reverse_append]]
  rw [List.dropWhile_cons, hb]
  simp only [Bool.false_eq_true, if_false]
  rw [show (b :: (mid.reverse ++ [a])).reverse = a :: (mid ++ [b]) from by
    simp [List.reverse_cons, List.reverse_append]]

theorem upToLastClose_concat (xs : List Char) :
    upToLastClose (xs ++ [cbrace]) = some (xs ++ [cbrace]) := by
  induction xs with
  | nil =>
    show upToLastClose [cbrace] = some [cbrace]
    simp [upToLastClose]
  | cons x rest ih =>
    rw [List.cons_append]
    show (match upToLastClose (rest ++ [cbrace]) with
      | some pre => some (x :: pre)
      | none => if x = cbrace then some [x] else none) = _
    rw [ih]

theorem braceSearch_shape (mid : List Char) :
    braceSearch (obrace :: (mid ++ [cbrace]))
      = some (obrace :: (mid ++ [cbrace])) := by
  show (if obrace = obrace then
      match upToLastClose (mid ++ [cbrace]) with
      | some pre => some (obrace :: pre)
      | none => none
    else braceSearch (mid ++ [cbrace])) = _
  rw [if_pos rfl, upToLastClose_concat mid]

/-- On a backtick-free text of brace-delimited shape, `_extract_json`
returns the text itself, via the regex fallback. -/
theorem extractJsonL_bare (mid : List Char)
    (hnb : ∀ c ∈ obrace :: (mid ++ [cbrace]), c ≠ btick) :
    extractJsonL (obrace :: (mid ++ [cbrace])) = obrace :: (mid ++ [cbrace]) := by
  have h1 : listOccurs tickJson (obrace :: (mid ++ [cbrace])) = false := by
    rw [show tickJson = btick :: "``json".data from by decide]
    exact listOccurs_no_btick _ _ hnb
  have h2 : listOccurs tick3 (obrace :: (mid ++ [cbrace])) = false := by
    rw [show tick3 = btick :: [btick, btick] from by decide]
    exact listOccurs_no_btick _ _ hnb
  unfold extractJsonL
  rw [h1, h2]
  simp only [Bool.false_and, Bool.false_eq_true, if_false]
  unfold bracesOrSelf
  rw [braceSearch_shape mid]

/-- On the fenced wrapping of a backtick-free brace-delimited text,
`_extract_json` strips the fences and returns the text itself. -/
theorem extractJsonL_fenced (mid : List Char)
    (hnb : ∀ c ∈ obrace :: (mid ++ [cbrace]), c ≠ btick) :
    extractJsonL (tickJson ++ ((obrace :: (mid ++ [cbrace])) ++ tick3))
      = obrace :: (mid ++ [cbrace]) := by
  set s : List Char := obrace :: (mid ++ [cbrace]) with hs
  have h1 : listOccurs tickJson (tickJson ++ (s ++ tick3)) = true :=
    listOccurs_of_isPrefixOf _ _ (isPrefixOf_append_self tickJson (s ++ tick3))
  have h2 : listOccurs tick3 (tickJson ++ (s ++ tick3)) = true := by
    have : tickJson ++ (s ++ tick3) = tick3 ++ ("json".data ++ (s ++ tick3)) := by
      rw [show tickJson = tick3 ++ "json".data from by decide]
      rw [List.append_assoc]
    rw [this]
    exact listOccurs_of_isPrefixOf _ _ (isPrefixOf_append_self tick3 _)
  have hsplit1 : pySplit tickJson (tickJson ++ (s ++ tick3))
      = [[], s ++ tick3] := by
    unfold pySplit
    have hlen : (tickJson ++ (s ++ tick3)).length = s.length + 10 := by
      simp [tickJson, tick3]
    rw [hlen]
    show splitOnAux (btick :: "``json".data) ((s.length + 9) + 1)
      (btick :: ("``json".data ++ (s ++ tick3))) [] = [[], s ++ tick3]
    rw [splitOnAux_sep_leading btick "``json".data (s ++ tick3) [] (s.length + 9)]
    show [].reverse :: splitOnAux tickJson (s.length + 9) (s ++ tick3) []
      = [[], s ++ tick3]
    rw [splitOnAux_no_occurrence tickJson (s ++ tick3) (s.length + 9) []
      (listOccurs_tickJson_trailing s hnb)
      (by rw [show (s ++ tick3).length = s.length + 3 from by simp [tick3]]
          omega)]
    rfl
  have hsplit2 : pySplit tick3 (s ++ tick3) = [s, []] := by
    unfold pySplit
    have hlen : (s ++ tick3).length = s.length + 3 := by simp [tick3]
    rw [hlen]
    rw [splitOnAux_trailing_tick3 s hnb (s.length + 3) [] (by omega)]
    rfl
  unfold extractJsonL
  rw [h1, h2]
  simp only [Bool.and_self, if_true]
  rw [hsplit1]
  rw [show ([[], s ++ tick3].getD 1 []) = s ++ tick3 from rfl]
  rw [hsplit2]
  rw [show ([s, []].getD 0 []) = s from rfl]
  rw [hs]
  exact pyStrip_of_ends obrace cbrace mid (by decide) (by decide)

/-! ## C9 — fenced vs. bare JSON extraction -/

unseal Rat.mul Rat.add Rat.inv Rat.sub in
/-- Counterexample for C9: take the JSON object with the single member
`"a"` bound to the string `"```"`; its `json.dumps` serialization is the
12-character text  `\x7b"a": "```"\x7d` (written below with `\x7b`/`\x7d`
escapes for the braces), which parses back to exactly that object.  When
this serialization is wrapped in a ```` ```json ... ``` ```` fence, the
`split("```")` in `_extract_json` cuts inside the string literal and
returns the unparseable fragment `\x7b"a": "`, while the bare text
extracts to itself and parses fine — so the two extractions do NOT parse
to the same JSON value. -/
theorem extractJson_fence_counterexample :
    parseJson (extractJson (fenceWrap "\x7b\"a\": \"```\"\x7d")) = none ∧
    parseJson (extractJson "\x7b\"a\": \"```\"\x7d")
      = some (Json.obj [("a", Json.str "```")]) ∧
    extractJson (fenceWrap "\x7b\"a\": \"```\"\x7d") = "\x7b\"a\": \"" ∧
    parseJson (extractJson (fenceWrap "\x7b\"a\": \"```\"\x7d"))
      ≠ parseJson (extractJson "\x7b\"a\": \"```\"\x7d") := by
  refine ⟨rfl, rfl, rfl, ?_⟩
  intro h
  rw [show parseJson (extractJson (fenceWrap "\x7b\"a\": \"```\"\x7d")) = none
    from rfl] at h
  rw [show parseJson (extractJson "\x7b\"a\": \"```\"\x7d")
    = some (Json.obj [("a", Json.str "```")]) from rfl] at h
  exact Option.noConfusion h

/-- C9 (amended): for every brace-delimited text `s` — the shape of every
serialized JSON object — containing no backtick, extracting JSON from the
fenced text ```` ```json<s>``` ```` yields exactly `s`, as does extracting
from the bare text, so the two extractions parse to the same JSON
value. -/
theorem extractJson_fenced_vs_bare (s : String) (mid : List Char)
    (hshape : s.data = obrace :: (mid ++ [cbrace]))
    (hnb : ∀ c ∈ s.data, c ≠ btick) :
    extractJson (fenceWrap s) = s ∧ extractJson s = s ∧
    parseJson (extractJson (fenceWrap s)) = parseJson (extractJson s) := by
  have hdata : (fenceWrap s).data = tickJson ++ (s.data ++ tick3) := by
    simp only [fenceWrap, String.data_append, List.append_assoc]
    rfl
  have hnb' : ∀ c ∈ obrace :: (mid ++ [cbrace]), c ≠ btick := hshape ▸ hnb
  have con1 : extractJson (fenceWrap s) = s := by
    show String.mk (extractJsonL (fenceWrap s).data) = s
    rw [hdata, hshape]
    rw [extractJsonL_fenced mid hnb']
    exact String.ext (by rw [hshape])
  have con2 : extractJson s = s := by
    show String.mk (extractJsonL s.data) = s
    rw [hshape]
    rw [extractJsonL_bare mid hnb']
    exact String.ext (by rw [hshape])
  exact ⟨con1, con2, by rw [con1, con2]⟩

/-- Witness for C9 (amended), at the serialized object `\x7b"a": "x"\x7d`. -/
theorem extractJson_fenced_vs_bare_witness :
    extractJson (fenceWrap "\x7b\"a\": \"x\"\x7d") = "\x7b\"a\": \"x\"\x7d" ∧
    extractJson "\x7b\"a\": \"x\"\x7d" = "\x7b\"a\": \"x\"\x7d" :=
  have h := extractJson_fenced_vs_bare "\x7b\"a\": \"x\"\x7d"
    "\"a\": \"x\"".data (by decide) (by decide)
  ⟨h.1, h.2.1⟩

/-! ## The completion request — `_make_api_request`
(src/models/evaluator.py lines 146-202 and
src/models/question_generator.py lines 205-261; identical control flow,
differing only in the prompt temperature and the final error message)

The loop tries `[self.model_name] + ALTERNATIVE_MODELS` in order.  For
each candidate it issues one HTTP POST; `call` maps the model name to that
attempt's outcome (the prompt, headers, timeout and payload are fixed for
the whole call, so they are not parameters of the model).  On HTTP 200 the
code runs `response.json()`, extracts a content string (`"text"` field,
`choices[0].text`, or `str(...)` of the body), applies `_extract_json`
and `json.loads`; any exception in that pipeline lands in the loop's
`except` and advances to the next candidate, exactly as a non-200 status
or a request exception does.  That 200-payload pipeline is modelled by
the `parse` parameter returning `Except` (an `Except.error` standing for
a raised exception).  On 404 with "Model not found" in the body the code
logs and `continue`s; on any other non-200 it logs and falls through to
the next iteration — behaviourally identical.  When the loop exhausts all
candidates the function raises, modelled as `Except.error errMsg`. -/

/-- Outcome of one HTTP POST: a response with status code and body text,
or a raised exception. -/
inductive HttpResult where
  | resp (status : Nat) (body : String)
  | exn (msg : String)

/-- One candidate attempt: the JSON object obtained from an HTTP 200
response whose payload pipeline succeeds, and `none` in every other
case. -/
def tryModel (call : String → HttpResult)
    (parse : String → Except String Json) (model : String) : Option Json :=
  match call model with
  | HttpResult.resp status body =>
    if status = 200 then (parse body).toOption else none
  | HttpResult.exn _ => none

/-- `_make_api_request`: try each candidate model in order; return the
first successfully parsed payload, otherwise raise. -/
def makeApiRequest (errMsg : String) (models : List String)
    (call : String → HttpResult) (parse : String → Except String Json) :
    Except String Json :=
  match models with
  | [] => Except.error errMsg
  | m :: rest =>
    match call m with
    | HttpResult.exn _ => makeApiRequest errMsg rest call parse
    | HttpResult.resp status body =>
      if status = 200 then
        match parse body with
        | Except.ok j => Except.ok j
        | Except.error _ => makeApiRequest errMsg rest call parse
      else if status = 404 ∧ strContains body "Model not found" then
        makeApiRequest errMsg rest call parse
      else
        makeApiRequest errMsg rest call parse

/-- The evaluator's candidate list (config.py: `SAMBANOVA_MODEL_NAME`
followed by `ALTERNATIVE_MODELS`). -/
def allModels : List String :=
  ["sambanova-llm", "sambanova-chat", "sambanova-1.5-chat", "llama-7b",
   "llama2-7b"]

theorem makeApiRequest_cons_eq (errMsg m : String) (rest : List String)
    (call : String → HttpResult) (parse : String → Except String Json) :
    makeApiRequest errMsg (m :: rest) call parse
      = match call m with
        | HttpResult.exn _ => makeApiRequest errMsg rest call parse
        | HttpResult.resp status body =>
          if status = 200 then
            match parse body with
            | Except.ok j => Except.ok j
            | Except.error _ => makeApiRequest errMsg rest call parse
          else if status = 404 ∧ strContains body "Model not found" then
            makeApiRequest errMsg rest call parse
          else makeApiRequest errMsg rest call parse := rfl

theorem makeApiRequest_cons (errMsg : String) (m : String) (rest : List String)
    (call : String → HttpResult) (parse : String → Except String Json)
    (h : tryModel call parse m = none) :
    makeApiRequest errMsg (m :: rest) call parse
      = makeApiRequest errMsg rest call parse := by
  unfold tryModel at h
  rw [makeApiRequest_cons_eq]
  cases hc : call m with
  | exn msg => rfl
  | resp status body =>
    rw [hc] at h
    dsimp only at h ⊢
    by_cases hs : status = 200
    · rw [if_pos hs]
      rw [if_pos hs] at h
      cases hp : parse body with
      | ok j =>
        rw [hp] at h
        exact absurd h (by simp [Except.toOption])
      | error e => rfl
    · rw [if_neg hs]
      by_cases h404 : status = 404 ∧ strContains body "Model not found"
      · rw [if_pos h404]
      · rw [if_neg h404]

theorem makeApiRequest_cons_ok (errMsg : String) (m : String)
    (rest : List String) (call : String → HttpResult)
    (parse : String → Except String Json) (j : Json)
    (h : tryModel call parse m = some j) :
    makeApiRequest errMsg (m :: rest) call parse = Except.ok j := by
  unfold tryModel at h
  rw [makeApiRequest_cons_eq]
  cases hc : call m with
  | exn msg => rw [hc] at h; exact absurd h (by simp)
  | resp status body =>
    rw [hc] at h
    dsimp only at h ⊢
    by_cases hs : status = 200
    · rw [if_pos hs]
      rw [if_pos hs] at h
      cases hp : parse body with
      | ok j' =>
        rw [hp] at h
        simp only [Except.toOption, Option.some.injEq] at h
        rw [h]
      | error e =>
        rw [hp] at h
        exact absurd h (by simp [Except.toOption])
    · rw [if_neg hs] at h
      exact absurd h (by simp)

/-- The request loop computes the first successful candidate, in list
order. -/
theorem makeApiRequest_eq_findSome (errMsg : String) (models : List String)
    (call : String → HttpResult) (parse : String → Except String Json) :
    makeApiRequest errMsg models call parse
      = match models.findSome? (tryModel call parse) with
        | some j => Except.ok j
        | none => Except.error errMsg := by
  induction models with
  | nil => rfl
  | cons m rest ih =>
    cases h : tryModel call parse m with
    | none =>
      rw [makeApiRequest_cons errMsg m rest call parse h, ih,
        List.findSome?_cons]
      rw [h]
    | some j =>
      rw [makeApiRequest_cons_ok errMsg m rest call parse j h,
        List.findSome?_cons]
      rw [h]

/-! ## C2 — the model-fallback protocol of `_make_api_request` -/

/-- C2: `_make_api_request` tries the candidate models in their listed
order (primary first); an HTTP 404 whose body contains "Model not found"
advances to the next candidate, as do exceptions, other statuses and
unparseable 200-payloads (all of these make `tryModel` yield `none`); the
call returns the payload of the FIRST candidate whose attempt succeeds,
with every earlier candidate having failed and later candidates never
inspected; and it raises (`Except.error`) precisely when every candidate
fails. -/
theorem makeApiRequest_protocol (errMsg : String) (models : List String)
    (call : String → HttpResult) (parse : String → Except String Json) :
    (∀ j, makeApiRequest errMsg models call parse = Except.ok j ↔
      ∃ pre m post, models = pre ++ m :: post ∧
        tryModel call parse m = some j ∧
        ∀ m' ∈ pre, tryModel call parse m' = none) ∧
    (makeApiRequest errMsg models call parse = Except.error errMsg ↔
      ∀ m ∈ models, tryModel call parse m = none) ∧
    (∀ m rest b, call m = HttpResult.resp 404 b →
      strContains b "Model not found" = true →
      makeApiRequest errMsg (m :: rest) call parse
        = makeApiRequest errMsg rest call parse) ∧
    (∀ m rest b j, call m = HttpResult.resp 200 b → parse b = Except.ok j →
      makeApiRequest errMsg (m :: rest) call parse = Except.ok j) := by
  have hchar := makeApiRequest_eq_findSome errMsg models call parse
  refine ⟨?_, ?_, ?_, ?_⟩
  · intro j
    rw [hchar]
    cases hf : models.findSome? (tryModel call parse) with
    | some j' =>
      constructor
      · intro h
        obtain ⟨l1, a, l2, hl, ha, hpre⟩ := List.findSome?_eq_some_iff.mp hf
        cases h
        exact ⟨l1, a, l2, hl, ha, hpre⟩
      · intro ⟨pre, m, post, hl, hm, hpre⟩
        have : models.findSome? (tryModel call parse) = some j :=
          List.findSome?_eq_some_iff.mpr ⟨pre, m, post, hl, hm, hpre⟩
        rw [hf] at this
        cases this
        rfl
    | none =>
      constructor
      · intro h
        exact absurd h (by simp)
      · intro ⟨pre, m, post, hl, hm, hpre⟩
        have : models.findSome? (tryModel call parse) = some j :=
          List.findSome?_eq_some_iff.mpr ⟨pre, m, post, hl, hm, hpre⟩
        rw [hf] at this
        exact absurd this (by simp)
  · rw [hchar]
    cases hf : models.findSome? (tryModel call parse) with
    | some j' =>
      constructor
      · intro h
        exact absurd h (by simp)
      · intro hall
        have : models.findSome? (tryModel call parse) = none :=
          List.findSome?_eq_none_iff.mpr hall
        rw [hf] at this
        exact absurd this (by simp)
    | none =>
      constructor
      · intro _
        exact List.findSome?_eq_none_iff.mp hf
      · intro _
        rfl
  · intro m rest b hcall hbody
    apply makeApiRequest_cons
    unfold tryModel
    rw [hcall]
    dsimp only
    rw [if_neg (by decide : ¬((404 : Nat) = 200))]
  · intro m rest b j hcall hparse
    apply makeApiRequest_cons_ok
    unfold tryModel
    rw [hcall]
    dsimp only
    rw [if_pos rfl, hparse]
    rfl

/-- Witness for C2: the primary model answers 404 "Model not found", the
first alternate answers 200 with a parseable payload; the call succeeds
with the alternate's payload. -/
theorem makeApiRequest_protocol_witness :
    makeApiRequest "All models failed to evaluate the answer" allModels
      (fun m => if m = "sambanova-llm" then
        HttpResult.resp 404 "Model not found"
      else HttpResult.resp 200 "null")
      (fun b => match parseJson b with
        | some j => Except.ok j
        | none => Except.error "No JSON object could be decoded")
      = Except.ok Json.null := by
  have h := (makeApiRequest_protocol "All models failed to evaluate the answer"
    allModels
    (fun m => if m = "sambanova-llm" then
      HttpResult.resp 404 "Model not found"
    else HttpResult.resp 200 "null")
    (fun b => match parseJson b with
      | some j => Except.ok j
      | none => Except.error "No JSON object could be decoded")).1 Json.null
  apply h.mpr
  refine ⟨["sambanova-llm"], "sambanova-chat",
    ["sambanova-1.5-chat", "llama-7b", "llama2-7b"], rfl, rfl, ?_⟩
  intro m' hm'
  have : m' = "sambanova-llm" := by
    cases hm' with
    | head => rfl
    | tail _ hh => cases hh
  rw [this]
  rfl

/-! ## Question generation — `QuestionGenerator.generate_question`
(src/models/question_generator.py)

Python dicts are modelled as association lists `List (String × Json)`
(`dictGet` looks a key up).  The completion call, with all its model
fallback and JSON extraction, is abstracted as `api : String →
Except String Json` (mapping the prompt to the parsed payload or a raised
exception), as in `makeApiRequest`. -/

/-- Key lookup in a Python dict modelled as an association list. -/
def dictGet (d : List (String × Json)) (k : String) : Option Json :=
  List.lookup k d

/-- `isinstance(j, dict)`. -/
def jsonIsDict : Json → Bool
  | Json.obj _ => true
  | _ => false

/-- `k in j` for a parsed JSON value used as a dict. -/
def jsonHasKey (j : Json) (k : String) : Bool :=
  match j with
  | Json.obj ms => ms.any (fun kv => kv.1 == k)
  | _ => false

/-- `j[k]` for a parsed JSON object (`json.loads` keeps the last binding
of a duplicated key, hence the reversed lookup); guarded by `jsonHasKey`
at every use site, so the `Json.null` default is never delivered. -/
def jsonGet (j : Json) (k : String) : Json :=
  match j with
  | Json.obj ms => (List.lookup k ms.reverse).getD Json.null
  | _ => Json.null

/-- The single-quote string, for Python `repr` renderings. -/
def squoteStr : String := ⟨[squote]⟩

/-- Python `repr` of a parsed JSON value (used by `str` on containers).
The exact rendering never reaches any claim; it is included for
completeness of the f-string model. -/
def pyRepr : Json → String
  | Json.null => "None"
  | Json.bool true => "True"
  | Json.bool false => "False"
  | Json.num q => if q.den = 1 then toString q.num else toString q
  | Json.str s => squoteStr ++ s ++ squoteStr
  | Json.arr xs =>
    "[" ++ String.intercalate ", " (xs.attach.map fun x => pyRepr x.1) ++ "]"
  | Json.obj ms =>
    "\x7b" ++ String.intercalate ", " (ms.attach.map fun kv =>
      squoteStr ++ kv.1.1 ++ squoteStr ++ ": " ++ pyRepr kv.1.2) ++ "\x7d"
decreasing_by
  · have h1 := List.sizeOf_lt_of_mem x.2
    have h2 : sizeOf (Json.arr xs) = 1 + sizeOf xs := by simp
    omega
  · have h1 := List.sizeOf_lt_of_mem kv.2
    have h2 : sizeOf (Json.obj ms) = 1 + sizeOf ms := by simp
    have h3 : sizeOf kv.1.2 < sizeOf kv.1 := by
      obtain ⟨⟨k, v⟩, hkv⟩ := kv
      simp
    omega

/-- Python `str` of a parsed JSON value, as interpolated by f-strings. -/
def pyStr : Json → String
  | Json.str s => s
  | j => pyRepr j

/-- `QuestionGenerator._create_text_question_prompt`. -/
def createTextQuestionPrompt (skill level : String) : String :=
  "\n        As an expert educator, create a single assessment question to evaluate a student\x27s knowledge of "
    ++ skill ++ " at a " ++ level ++ " level.\n        \n        The question should:\n        1. Be clear and direct\n        2. Be appropriate for the "
    ++ level ++ " level\n        3. Focus specifically on "
    ++ skill ++ "\n        4. Be answerable in 1-3 paragraphs\n        \n        Provide your response in this exact JSON format:\n        \x7b\n            \"question\": \"The complete question text\",\n            \"expected_answer\": \"Key points that should be included in a correct answer\"\n        \x7d\n        \n        The JSON must be valid. No markdown formatting. No additional text before or after the JSON.\n        "

/-- The audio-scenario prompt of `_generate_audio_question`. -/
def createAudioQuestionPrompt (skill level : String) : String :=
  "\n        Create a realistic audio scenario to assess " ++ skill
    ++ " at a " ++ level ++ " level.\n        \n        The scenario should:\n        1. Be a situation that would be presented as an audio recording\n        2. Require the student to demonstrate their "
    ++ skill ++ " skills at a " ++ level
    ++ " level\n        3. Be specific and detailed enough for clear assessment\n        \n        Provide your response in this exact JSON format:\n        \x7b\n            \"audio_scenario\": \"Detailed description of what the audio would contain\",\n            \"question\": \"The specific question to ask the student after they hear the audio\",\n            \"expected_answer\": \"Key points that should be included in a correct answer\"\n        \x7d\n        "

/-- The image-description prompt of `_generate_image_question`. -/
def createImageQuestionPrompt (skill level : String) : String :=
  "\n        Create a detailed description of an image that could be used to assess "
    ++ skill ++ " at a " ++ level
    ++ " level.\n        \n        The image description should:\n        1. Be clear and visualizable\n        2. Relate directly to "
    ++ skill ++ "\n        3. Present a scenario appropriate for " ++ level
    ++ " assessment\n        \n        Provide your response in this exact JSON format:\n        \x7b\n            \"image_description\": \"Detailed description of what the image would show\",\n            \"question\": \"The specific question to ask the student about the image\",\n            \"expected_answer\": \"Key points that should be included in a correct answer\"\n        \x7d\n        "

/-- `QuestionGenerator._generate_fallback_question`: the static per-level
table (string-interpolated with the skill). -/
def fallbackQuestions (skill : String) : List (String × (String × String)) :=
  [("Beginner",
    ("Explain the core concepts of " ++ skill
       ++ " at a beginner level. What are the fundamental ideas someone new to "
       ++ skill ++ " should understand?",
     "A good answer should cover the basic principles of " ++ skill
       ++ ", define key terminology, and explain foundational concepts without advanced jargon. The answer should be accessible to someone with no prior knowledge of "
       ++ skill ++ ".")),
   ("Intermediate",
    ("Describe the practical applications of " ++ skill
       ++ " at an intermediate level. How would you implement " ++ skill
       ++ " techniques in real-world scenarios?",
     "A good answer should demonstrate clear understanding of " ++ skill
       ++ " concepts, explain how to apply them in practice, include examples of common use cases, and show awareness of limitations or challenges when implementing "
       ++ skill ++ ".")),
   ("Advanced",
    ("Analyze how " ++ skill
       ++ " has evolved over time and discuss current cutting-edge developments. What advanced techniques distinguish expert practitioners in this field?",
     "A comprehensive answer should demonstrate deep knowledge of " ++ skill
       ++ ", including its historical development, current state-of-the-art techniques, ability to critically evaluate different approaches, and awareness of ongoing research or innovations in the field."))]

/-- `_generate_fallback_question`: index the table by the level, falling
back to "Intermediate" when the level is not a table key; returns the
`(question, expected_answer)` pair. -/
def fallbackQuestion (skill level : String) : String × String :=
  let table := fallbackQuestions skill
  let level_key := if (List.lookup level table).isSome then level
    else "Intermediate"
  (List.lookup level_key table).getD ("", "")

/-- The dict returned on the fallback path of `_generate_text_question`. -/
def textFallbackDict (skill level : String) : List (String × Json) :=
  [("question_type", Json.str "Text"),
   ("question_content", Json.str (fallbackQuestion skill level).1),
   ("expected_answer", Json.str (fallbackQuestion skill level).2),
   ("media_path", Json.null)]

/-- `QuestionGenerator._generate_text_question`. -/
def generateTextQuestion (api : String → Except String Json)
    (skill level : String) : List (String × Json) :=
  match api (createTextQuestionPrompt skill level) with
  | Except.ok qd =>
    if jsonIsDict qd && jsonHasKey qd "question"
        && jsonHasKey qd "expected_answer" then
      [("question_type", Json.str "Text"),
       ("question_content", jsonGet qd "question"),
       ("expected_answer", jsonGet qd "expected_answer"),
       ("media_path", Json.null)]
    else textFallbackDict skill level
  | Except.error _ => textFallbackDict skill level

/-- The dict returned on the fallback path of `_generate_audio_question`
(the canned scenario around the static fallback question). -/
def audioFallbackDict (skill level : String) : List (String × Json) :=
  [("question_type", Json.str "Audio"),
   ("question_content", Json.str ("Audio Scenario: Imagine you are listening to a conversation about "
     ++ skill
     ++ ". The speakers are discussing key aspects and challenges.\n\nQuestion: "
     ++ (fallbackQuestion skill level).1)),
   ("expected_answer", Json.str (fallbackQuestion skill level).2),
   ("media_path", Json.null)]

/-- `QuestionGenerator._generate_audio_question`. -/
def generateAudioQuestion (api : String → Except String Json)
    (skill level : String) : List (String × Json) :=
  match api (createAudioQuestionPrompt skill level) with
  | Except.ok qd =>
    if jsonIsDict qd
        && (["audio_scenario", "question", "expected_answer"].all
          (jsonHasKey qd)) then
      [("question_type", Json.str "Audio"),
       ("question_content", Json.str ("Audio Scenario: "
         ++ pyStr (jsonGet qd "audio_scenario") ++ "\n\nQuestion: "
         ++ pyStr (jsonGet qd "question"))),
       ("expected_answer", jsonGet qd "expected_answer"),
       ("media_path", Json.null)]
    else audioFallbackDict skill level
  | Except.error _ => audioFallbackDict skill level

/-- The dict returned on the fallback path of `_generate_image_question`. -/
def imageFallbackDict (skill level : String) : List (String × Json) :=
  [("question_type", Json.str "Image"),
   ("question_content", Json.str ("Look at the image and answer: "
     ++ (fallbackQuestion skill level).1)),
   ("expected_answer", Json.str (fallbackQuestion skill level).2),
   ("image_description", Json.str ("A professional workplace scene showing people demonstrating "
     ++ skill ++ " in different ways.")),
   ("media_path", Json.null)]

/-- `QuestionGenerator._generate_image_question`. -/
def generateImageQuestion (api : String → Except String Json)
    (skill level : String) : List (String × Json) :=
  match api (createImageQuestionPrompt skill level) with
  | Except.ok qd =>
    if jsonIsDict qd
        && (["image_description", "question", "expected_answer"].all
          (jsonHasKey qd)) then
      [("question_type", Json.str "Image"),
       ("question_content", Json.str ("Look at the image and answer the following question:\n\n"
         ++ pyStr (jsonGet qd "question"))),
       ("expected_answer", jsonGet qd "expected_answer"),
       ("image_description", jsonGet qd "image_description"),
       ("media_path", Json.null)]
    else imageFallbackDict skill level
  | Except.error _ => imageFallbackDict skill level

/-- `QuestionGenerator.generate_question`: dispatch on the question type;
an unsupported type logs an error and returns the raw fallback pair
(whose keys are `question`/`expected_answer`, not `question_content`). -/
def generateQuestion (api : String → Except String Json)
    (skill level question_type : String) : List (String × Json) :=
  if question_type = "Text" then generateTextQuestion api skill level
  else if question_type = "Audio" then generateAudioQuestion api skill level
  else if question_type = "Image" then generateImageQuestion api skill level
  else
    [("question", Json.str (fallbackQuestion skill level).1),
     ("expected_answer", Json.str (fallbackQuestion skill level).2)]

/-- The keys `generate_question` requires of the API's payload for a given
question type (the validation in each branch). -/
def questionRequiredKeys (question_type : String) : List String :=
  if question_type = "Text" then ["question", "expected_answer"]
  else if question_type = "Audio" then
    ["audio_scenario", "question", "expected_answer"]
  else if question_type = "Image" then
    ["image_description", "question", "expected_answer"]
  else []

/-- Whether a payload passes the branch validation for the given question
type (for an unsupported type the API is never called, so nothing
passes). -/
def questionValidShape (question_type : String) (j : Json) : Bool :=
  if question_type = "Text" ∨ question_type = "Audio"
      ∨ question_type = "Image" then
    jsonIsDict j && (questionRequiredKeys question_type).all (jsonHasKey j)
  else false

/-! ## Supporting lemmas for C1 -/

theorem append_ne_empty_of_left (x y : String) (h : x ≠ "") : x ++ y ≠ "" := by
  apply string_ne_empty_of_data_ne_nil
  rw [String.data_append]
  intro hh
  have hx : x.data = [] := (List.append_eq_nil.mp hh).1
  exact h (String.ext (by rw [hx]))

/-- The static fallback table never produces an empty question or an empty
expected answer, whatever the skill and level. -/
theorem fallbackQuestion_ne_empty (skill level : String) :
    (fallbackQuestion skill level).1 ≠ "" ∧
    (fallbackQuestion skill level).2 ≠ "" := by
  by_cases hB : level = "Beginner"
  · subst hB
    constructor
    · repeat apply append_ne_empty_of_left
      decide
    · repeat apply append_ne_empty_of_left
      decide
  by_cases hI : level = "Intermediate"
  · subst hI
    constructor
    · repeat apply append_ne_empty_of_left
      decide
    · repeat apply append_ne_empty_of_left
      decide
  by_cases hA : level = "Advanced"
  · subst hA
    constructor
    · repeat apply append_ne_empty_of_left
      decide
    · repeat apply append_ne_empty_of_left
      decide
  · have h1 : (level == "Beginner") = false := beq_eq_false_iff_ne.mpr hB
    have h2 : (level == "Intermediate") = false := beq_eq_false_iff_ne.mpr hI
    have h3 : (level == "Advanced") = false := beq_eq_false_iff_ne.mpr hA
    have hlook : List.lookup level (fallbackQuestions skill) = none := by
      unfold fallbackQuestions
      simp only [List.lookup, h1, h2, h3]
    have heq : fallbackQuestion skill level
        = (List.lookup "Intermediate" (fallbackQuestions skill)).getD ("", "") := by
      show (List.lookup
        (if (List.lookup level (fallbackQuestions skill)).isSome = true
          then level else "Intermediate") (fallbackQuestions skill)).getD ("", "")
        = _
      rw [hlook]
      rfl
    rw [heq]
    constructor
    · repeat apply append_ne_empty_of_left
      decide
    · repeat apply append_ne_empty_of_left
      decide

theorem validShape_text (j : Json) :
    (jsonIsDict j && jsonHasKey j "question" && jsonHasKey j "expected_answer")
      = questionValidShape "Text" j := by
  unfold questionValidShape questionRequiredKeys
  rw [if_pos (Or.inl rfl), if_pos rfl]
  cases hd : jsonIsDict j <;> cases hq : jsonHasKey j "question" <;>
    cases he : jsonHasKey j "expected_answer" <;>
    simp [List.all_cons, List.all_nil, hd, hq, he]

theorem validShape_audio (j : Json) :
    (jsonIsDict j
        && (["audio_scenario", "question", "expected_answer"].all
          (jsonHasKey j)))
      = questionValidShape "Audio" j := rfl

theorem validShape_image (j : Json) :
    (jsonIsDict j
        && (["image_description", "question", "expected_answer"].all
          (jsonHasKey j)))
      = questionValidShape "Image" j := rfl

/-! ## C1 — `generate_question` always yields non-empty content -/

/-- C1: for every skill, level and question type, whenever the completion
API either always fails or only ever returns payloads missing a required
key, `generate_question` returns (without raising — the model is a total
function) a question dict whose question text (under `question_content`
for the three supported types, under `question` for the raw fallback dict
of an unsupported type) and `expected_answer` are both non-empty strings,
drawn from the static fallback table. -/
theorem generateQuestion_nonempty (api : String → Except String Json)
    (skill level question_type : String)
    (H : ∀ p j, api p = Except.ok j → questionValidShape question_type j = false) :
    ∃ q a : String,
      dictGet (generateQuestion api skill level question_type)
        (if question_type = "Text" ∨ question_type = "Audio"
            ∨ question_type = "Image" then "question_content"
          else "question") = some (Json.str q) ∧ q ≠ "" ∧
      dictGet (generateQuestion api skill level question_type)
        "expected_answer" = some (Json.str a) ∧ a ≠ "" := by
  obtain ⟨hfq, hfa⟩ := fallbackQuestion_ne_empty skill level
  by_cases hT : question_type = "Text"
  · subst hT
    rw [if_pos (Or.inl rfl)]
    have hgen : generateQuestion api skill level "Text"
        = generateTextQuestion api skill level := by
      unfold generateQuestion
      rw [if_pos rfl]
    rw [hgen]
    cases hapi : api (createTextQuestionPrompt skill level) with
    | error e =>
      have hstep : generateTextQuestion api skill level
          = textFallbackDict skill level := by
        unfold generateTextQuestion
        rw [hapi]
      rw [hstep]
      exact ⟨_, _, rfl, hfq, rfl, hfa⟩
    | ok j =>
      have hv := H _ _ hapi
      rw [← validShape_text j] at hv
      have hstep : generateTextQuestion api skill level
          = textFallbackDict skill level := by
        unfold generateTextQuestion
        rw [hapi]
        dsimp only
        rw [hv]
        simp only [Bool.false_eq_true, if_false]
      rw [hstep]
      exact ⟨_, _, rfl, hfq, rfl, hfa⟩
  by_cases hA : question_type = "Audio"
  · subst hA
    rw [if_pos (Or.inr (Or.inl rfl))]
    have hgen : generateQuestion api skill level "Audio"
        = generateAudioQuestion api skill level := by
      unfold generateQuestion
      rw [if_neg (by decide), if_pos rfl]
    rw [hgen]
    have hne : ("Audio Scenario: Imagine you are listening to a conversation about "
        ++ skill
        ++ ". The speakers are discussing key aspects and challenges.\n\nQuestion: "
        ++ (fallbackQuestion skill level).1) ≠ "" := by
      repeat apply append_ne_empty_of_left
      decide
    cases hapi : api (createAudioQuestionPrompt skill level) with
    | error e =>
      have hstep : generateAudioQuestion api skill level
          = audioFallbackDict skill level := by
        unfold generateAudioQuestion
        rw [hapi]
      rw [hstep]
      exact ⟨_, _, rfl, hne, rfl, hfa⟩
    | ok j =>
      have hv := H _ _ hapi
      rw [← validShape_audio j] at hv
      have hstep : generateAudioQuestion api skill level
          = audioFallbackDict skill level := by
        unfold generateAudioQuestion
        rw [hapi]
        dsimp only
        rw [hv]
        simp only [Bool.false_eq_true, if_false]
      rw [hstep]
      exact ⟨_, _, rfl, hne, rfl, hfa⟩
  by_cases hI : question_type = "Image"
  · subst hI
    rw [if_pos (Or.inr (Or.inr rfl))]
    have hgen : generateQuestion api skill level "Image"
        = generateImageQuestion api skill level := by
      unfold generateQuestion
      rw [if_neg (by decide), if_neg (by decide), if_pos rfl]
    rw [hgen]
    have hne : ("Look at the image and answer: "
        ++ (fallbackQuestion skill level).1) ≠ "" := by
      repeat apply append_ne_empty_of_left
      decide
    cases hapi : api (createImageQuestionPrompt skill level) with
    | error e =>
      have hstep : generateImageQuestion api skill level
          = imageFallbackDict skill level := by
        unfold generateImageQuestion
        rw [hapi]
      rw [hstep]
      exact ⟨_, _, rfl, hne, rfl, hfa⟩
    | ok j =>
      have hv := H _ _ hapi
      rw [← validShape_image j] at hv
      have hstep : generateImageQuestion api skill level
          = imageFallbackDict skill level := by
        unfold generateImageQuestion
        rw [hapi]
        dsimp only
        rw [hv]
        simp only [Bool.false_eq_true, if_false]
      rw [hstep]
      exact ⟨_, _, rfl, hne, rfl, hfa⟩
  · rw [if_neg (by
      intro hc
      rcases hc with h | h | h
      · exact hT h
      · exact hA h
      · exact hI h)]
    have hgen : generateQuestion api skill level question_type
        = [("question", Json.str (fallbackQuestion skill level).1),
           ("expected_answer", Json.str (fallbackQuestion skill level).2)] := by
      unfold generateQuestion
      rw [if_neg hT, if_neg hA, if_neg hI]
    rw [hgen]
    exact ⟨_, _, rfl, hfq, rfl, hfa⟩

/-- Witness for C1: a completion API that always raises, with a Text
question for Communication at Beginner level. -/
theorem generateQuestion_nonempty_witness :
    ∃ q a : String,
      dictGet (generateQuestion (fun _ => Except.error "API down")
          "Communication" "Beginner" "Text")
        (if ("Text" : String) = "Text" ∨ ("Text" : String) = "Audio"
            ∨ ("Text" : String) = "Image" then "question_content"
          else "question") = some (Json.str q) ∧ q ≠ "" ∧
      dictGet (generateQuestion (fun _ => Except.error "API down")
          "Communication" "Beginner" "Text")
        "expected_answer" = some (Json.str a) ∧ a ≠ "" :=
  generateQuestion_nonempty (fun _ => Except.error "API down")
    "Communication" "Beginner" "Text" (fun _ _ h => Except.noConfusion h)
